import Mathlib

/-!
# Verification of the kenchidb storage-engine core

This file gives a shallow embedding, in Lean 4, of the core data structures and
operations of the kenchidb repository, and proves (or refutes) the frozen claims
about them.  Each definition is a direct translation of the Rust source:

* byte buffers (`Vec<u8>`, `[u8; N]`) are `List Nat` with every entry a byte value;
  `copy_from_slice` at an offset becomes `writeAt`, sub-slices become `extract`;
* fixed-width little-endian integers (`u16`/`u32`/`u64` via `to_le_bytes` /
  `from_le_bytes`) become explicit byte-digit lists `le16`/`le32`/`le64` and the
  corresponding reads;
* wrapping 32-bit arithmetic is modelled with explicit `% 2^32`;
* fallible Rust functions returning `Result` become `Except String`;
* loops become structurally recursive helper functions so that every definition
  is executable by the kernel.
-/

/-- `arr.take off ++ src ++ ...`: semantics of Rust
`arr[off..off+src.len()].copy_from_slice(&src)` for an in-bounds write. -/
def writeAt (arr : List Nat) (off : Nat) (src : List Nat) : List Nat :=
  arr.take off ++ src ++ arr.drop (off + src.length)

/-- The sub-slice `arr[a..b]`. -/
def extract (arr : List Nat) (a b : Nat) : List Nat :=
  (arr.drop a).take (b - a)

/-- Little-endian bytes of a 16-bit value (`u16::to_le_bytes`). -/
def le16 (v : Nat) : List Nat :=
  [v % 256, v / 256 % 256]

/-- Little-endian bytes of a 32-bit value (`u32::to_le_bytes`). -/
def le32 (v : Nat) : List Nat :=
  [v % 256, v / 256 % 256, v / 65536 % 256, v / 16777216 % 256]

/-- Little-endian bytes of a 64-bit value (`u64::to_le_bytes`). -/
def le64 (v : Nat) : List Nat :=
  [v % 256, v / 256 % 256, v / 65536 % 256, v / 16777216 % 256,
   v / 4294967296 % 256, v / 1099511627776 % 256,
   v / 281474976710656 % 256, v / 72057594037927936 % 256]

/-- `u16::from_le_bytes` on the two bytes at `off`. -/
def readLE2 (bytes : List Nat) (off : Nat) : Nat :=
  bytes.getD off 0 + 256 * bytes.getD (off + 1) 0

/-- `u32::from_le_bytes` on the four bytes at `off`. -/
def readLE4 (bytes : List Nat) (off : Nat) : Nat :=
  bytes.getD off 0 + 256 * bytes.getD (off + 1) 0 +
    65536 * bytes.getD (off + 2) 0 + 16777216 * bytes.getD (off + 3) 0

/-- `u64::from_le_bytes` on the eight bytes at `off`. -/
def readLE8 (bytes : List Nat) (off : Nat) : Nat :=
  bytes.getD off 0 + 256 * bytes.getD (off + 1) 0 +
    65536 * bytes.getD (off + 2) 0 + 16777216 * bytes.getD (off + 3) 0 +
    4294967296 * bytes.getD (off + 4) 0 + 1099511627776 * bytes.getD (off + 5) 0 +
    281474976710656 * bytes.getD (off + 6) 0 +
    72057594037927936 * bytes.getD (off + 7) 0

/-!
## Fletcher32 (src/crates/storage/src/data_util.rs, `get_fletcher32`)

The Rust function reads 16-bit big-endian words, keeps running sums `sum1, sum2`
(32-bit, modelled with explicit `% 2^32`), folds both sums to 16 bits after
every block of 360 words and once more at the end, and returns
`(sum2 << 16) | sum1`.
-/

/-- Big-endian 16-bit words `(b[i] << 8) | b[i+1]` of a byte list, dropping a
trailing odd byte (the caller handles it separately, as the source does). -/
def toWords : List Nat → List Nat
  | b0 :: b1 :: rest => ((b0 * 256) ||| b1) :: toWords rest
  | _ => []

/-- The 16-bit fold `(s & 0xffff) + (s >> 16)`. -/
def fold16 (s : Nat) : Nat :=
  s % 65536 + s / 65536

/-- One inner block of the Fletcher loop: `sum1 += word; sum2 += sum1` over the
block, with 32-bit wrapping. -/
def fletchBlockSum (blk : List Nat) (s : Nat × Nat) : Nat × Nat :=
  blk.foldl
    (fun s w =>
      let s1 := (s.1 + w) % 4294967296
      (s1, (s.2 + s1) % 4294967296))
    s

/-- The outer Fletcher loop: process up to 360 words, fold both sums, repeat.
`fuel` bounds the number of blocks; it is always called with enough fuel. -/
def fletchBlocks : Nat → List Nat → Nat × Nat → Nat × Nat
  | _, [], s => s
  | 0, _ :: _, s => s
  | fuel + 1, w :: rest, s =>
    let s1 := fletchBlockSum ((w :: rest).take 360) s
    fletchBlocks fuel ((w :: rest).drop 360) (fold16 s1.1, fold16 s1.2)

/-- `get_fletcher32(bytes, offset, length)` from data_util.rs. -/
def get_fletcher32 (bytes : List Nat) (offset length : Nat) : Nat :=
  let evenLen := length - length % 2
  let words := toWords (extract bytes offset (offset + evenLen))
  let s := fletchBlocks (words.length + 1) words (65535, 65535)
  let s :=
    if length % 2 = 1 then
      let x := bytes.getD (offset + evenLen) 0 * 256
      let s1 := (s.1 + x) % 4294967296
      (s1, (s.2 + s1) % 4294967296)
    else s
  let sum1 := fold16 s.1
  let sum2 := fold16 s.2
  (sum2 * 65536) % 4294967296 ||| sum1

/-!
## Chunk header / footer codec (src/crates/storage/src/chunk.rs and the two
serializer drafts).

`ChunkHeader` carries the fields of the struct in chunk.rs; the `[u8; 4]` magic
is always the constant `"KNCH"` = `[75, 78, 67, 72]` when written.
-/

structure ChunkHeader where
  id : Nat
  length : Nat
  version : Nat
  time : Nat
  max_length : Nat
  page_count : Nat
  pin_count : Nat
  table_of_content_position : Nat
  layout_root_position : Nat
  map_id : Nat
  next : Nat
deriving Repr, DecidableEq

/-- `ChunkHeader::serialize_header` from src/crates/storage/src/chunk_impl_margin.rs,
which writes every field at the `FIELD_*_OFFSET` constant declared in chunk.rs
(magic 0, id 4, length 8, version 12, time 20, max_length 28, page_count 32,
pin_count 36, table_of_content_position 40, layout_root_position 44,
map_id 52, next 56) into a zeroed 96-byte array. -/
def ChunkHeader.serialize_header (h : ChunkHeader) : List Nat :=
  let bytes := List.replicate 96 0
  let bytes := writeAt bytes 0 [75, 78, 67, 72]
  let bytes := writeAt bytes 4 (le32 h.id)
  let bytes := writeAt bytes 8 (le32 h.length)
  let bytes := writeAt bytes 12 (le64 h.version)
  let bytes := writeAt bytes 20 (le64 h.time)
  let bytes := writeAt bytes 28 (le32 h.max_length)
  let bytes := writeAt bytes 32 (le32 h.page_count)
  let bytes := writeAt bytes 36 (le32 h.pin_count)
  let bytes := writeAt bytes 40 (le32 h.table_of_content_position)
  let bytes := writeAt bytes 44 (le64 h.layout_root_position)
  let bytes := writeAt bytes 52 (le32 h.map_id)
  let bytes := writeAt bytes 56 (le64 h.next)
  bytes

/-- `ChunkHeader::serialize_header` from
src/crates/storage/src/chunk_impl_header_footer.rs (lines 9-53), which instead
writes the fields sequentially, all 4-byte fields first: magic 0, id 4,
length 8, page_count 12, table_of_content_position 16, max_length 20,
pin_count 24, map_id 28, then version 32, time 40, layout_root_position 48,
next 56. -/
def ChunkHeader.serialize_header_hf (h : ChunkHeader) : List Nat :=
  let bytes := List.replicate 96 0
  let bytes := writeAt bytes 0 [75, 78, 67, 72]
  let bytes := writeAt bytes 4 (le32 h.id)
  let bytes := writeAt bytes 8 (le32 h.length)
  let bytes := writeAt bytes 12 (le32 h.page_count)
  let bytes := writeAt bytes 16 (le32 h.table_of_content_position)
  let bytes := writeAt bytes 20 (le32 h.max_length)
  let bytes := writeAt bytes 24 (le32 h.pin_count)
  let bytes := writeAt bytes 28 (le32 h.map_id)
  let bytes := writeAt bytes 32 (le64 h.version)
  let bytes := writeAt bytes 40 (le64 h.time)
  let bytes := writeAt bytes 48 (le64 h.layout_root_position)
  let bytes := writeAt bytes 56 (le64 h.next)
  bytes

structure ChunkFooter where
  id : Nat
  length : Nat
  version : Nat
  checksum : Nat
deriving Repr, DecidableEq

/-- `ChunkFooter::serialize_footer` from
src/crates/storage/src/chunk_impl_header_footer.rs (lines 103-125): id at 0,
length at 4, version at 8, then the Fletcher32 checksum of bytes `[0, 16)`
written at 16, in a zeroed 96-byte array.  (The chunk_impl_margin.rs draft
writes the same offsets through the `FIELD_*_OFFSET` constants.) -/
def ChunkFooter.serialize_footer (f : ChunkFooter) : List Nat :=
  let bytes := List.replicate 96 0
  let bytes := writeAt bytes 0 (le32 f.id)
  let bytes := writeAt bytes 4 (le32 f.length)
  let bytes := writeAt bytes 8 (le64 f.version)
  let checksum := get_fletcher32 bytes 0 16
  writeAt bytes 16 (le32 checksum)

/-- `ChunkFooter::verify_footer`: recompute Fletcher32 over `[0, 16)` and
compare with the little-endian u32 stored at `[16, 20)`. -/
def ChunkFooter.verify_footer (bytes : List Nat) : Bool :=
  if bytes.length ≠ 96 then false
  else
    let stored_checksum := readLE4 bytes 16
    let calculated_checksum := get_fletcher32 bytes 0 16
    stored_checksum == calculated_checksum

/-!
## Slotted pages (src/src/storage/page.rs)

`PAGE_SIZE = 4096`, `PAGE_HEADER_SIZE = 24`, `MAX_PAGE_DATA_SIZE = 4072`.
The `data` vector of a `Page` models the record-heap region, i.e. page offsets
`[24, 4096)`; `u16` fields are `Nat`s kept below `2^16` by the operations.
`&mut self` methods returning `Result` become functions returning the updated
page paired with an `Except`.
-/

def PAGE_SIZE : Nat := 4096

def PAGE_HEADER_SIZE : Nat := 24

def MAX_PAGE_DATA_SIZE : Nat := PAGE_SIZE - PAGE_HEADER_SIZE

inductive PageType where
  | DataPage
  | MetaPage
  | FreePage
  | HeaderPage
deriving Repr, DecidableEq

/-- The `#[repr(u8)]` discriminant of a `PageType`. -/
def PageType.toU8 : PageType → Nat
  | .DataPage => 1
  | .MetaPage => 2
  | .FreePage => 3
  | .HeaderPage => 4

/-- `PageType::from_u8`. -/
def PageType.from_u8 (value : Nat) : Except String PageType :=
  if value = 1 then .ok .DataPage
  else if value = 2 then .ok .MetaPage
  else if value = 3 then .ok .FreePage
  else if value = 4 then .ok .HeaderPage
  else .error "Invalid page type"

structure PageHeader where
  magic : Nat
  page_type : PageType
  reserved : List Nat
  record_count : Nat
  free_space_start : Nat
  free_space_size : Nat
  checksum : Nat
  collection_id : Nat
deriving Repr, DecidableEq

/-- `PageHeader::MAGIC_NUMBER = 0x4B454E43`. -/
def PageHeader.MAGIC_NUMBER : Nat := 0x4B454E43

/-- `PageHeader::new`. -/
def PageHeader.new (page_type : PageType) (collection_id : Nat) : PageHeader :=
  { magic := PageHeader.MAGIC_NUMBER
    page_type := page_type
    reserved := [0, 0, 0]
    record_count := 0
    free_space_start := PAGE_HEADER_SIZE
    free_space_size := MAX_PAGE_DATA_SIZE
    checksum := 0
    collection_id := collection_id }

/-- `PageHeader::serialize`: magic at 0, page type at 4, reserved at 5,
record_count at 8, free_space_start at 10, free_space_size at 12, checksum at
14, collection_id at 18 (bytes 22 and 23 stay zero). -/
def PageHeader.serialize (h : PageHeader) : List Nat :=
  let bytes := List.replicate PAGE_HEADER_SIZE 0
  let bytes := writeAt bytes 0 (le32 h.magic)
  let bytes := writeAt bytes 4 [h.page_type.toU8]
  let bytes := writeAt bytes 5 h.reserved
  let bytes := writeAt bytes 8 (le16 h.record_count)
  let bytes := writeAt bytes 10 (le16 h.free_space_start)
  let bytes := writeAt bytes 12 (le16 h.free_space_size)
  let bytes := writeAt bytes 14 (le32 h.checksum)
  let bytes := writeAt bytes 18 (le32 h.collection_id)
  bytes

/-- `PageHeader::deserialize`. -/
def PageHeader.deserialize (bytes : List Nat) : Except String PageHeader :=
  if bytes.length < PAGE_HEADER_SIZE then .error "Invalid page header size"
  else
    let magic := readLE4 bytes 0
    if magic ≠ PageHeader.MAGIC_NUMBER then .error "Invalid page magic number"
    else
      match PageType.from_u8 (bytes.getD 4 0) with
      | .error e => .error e
      | .ok page_type =>
        let reserved := [bytes.getD 5 0, bytes.getD 6 0, bytes.getD 7 0]
        let record_count := readLE2 bytes 8
        let free_space_start := readLE2 bytes 10
        let free_space_size := readLE2 bytes 12
        let checksum := readLE4 bytes 14
        let collection_id := readLE4 bytes 18
        .ok { magic := magic, page_type := page_type, reserved := reserved,
              record_count := record_count, free_space_start := free_space_start,
              free_space_size := free_space_size, checksum := checksum,
              collection_id := collection_id }

structure SlotEntry where
  offset : Nat
  length : Nat
deriving Repr, DecidableEq

/-- `SlotEntry::serialize`: offset (LE u16) then length (LE u16). -/
def SlotEntry.serialize (s : SlotEntry) : List Nat :=
  le16 s.offset ++ le16 s.length

/-- `SlotEntry::deserialize` as written in the source: the offset is read from
bytes `[0], [1]`, but the length is read from bytes `[1], [2]` (the source
indexes `bytes[1]` and `bytes[2]` instead of `bytes[2]` and `bytes[3]`). -/
def SlotEntry.deserialize (bytes : List Nat) : Except String SlotEntry :=
  if bytes.length < 4 then .error "Invalid slot entry size"
  else
    let offset := bytes.getD 0 0 + 256 * bytes.getD 1 0
    let length := bytes.getD 1 0 + 256 * bytes.getD 2 0
    .ok { offset := offset, length := length }

structure Page where
  header : PageHeader
  slots : List SlotEntry
  data : List Nat
deriving Repr, DecidableEq

/-- `Page::new`. -/
def Page.new (page_type : PageType) (collection_id : Nat) : Page :=
  { header := PageHeader.new page_type collection_id
    slots := []
    data := List.replicate MAX_PAGE_DATA_SIZE 0 }

/-- `Page::insert_record`: fails when `data.len() + 4 > free_space_size`,
otherwise places the record at `PAGE_SIZE - slots.len() * 4 - data.len()`
(an offset computed from the slot count, not from the previous records),
appends the slot entry, increments `record_count` and shrinks
`free_space_size` by `data.len() + 4` (`saturating_sub`, which is ordinary
truncated subtraction on `Nat`). -/
def Page.insert_record (p : Page) (record_data : List Nat) : Page × Except String Nat :=
  let record_size := record_data.length
  let slot_size := 4
  if p.header.free_space_size < record_size + slot_size then
    (p, .error "Not enough space in page")
  else
    let data_end := PAGE_SIZE - p.slots.length * slot_size
    let new_record_offset := data_end - record_size
    let data_start_in_page := new_record_offset - PAGE_HEADER_SIZE
    let data := writeAt p.data data_start_in_page record_data
    let slot_index := p.slots.length
    let slots := p.slots ++ [{ offset := new_record_offset, length := record_size }]
    let header := { p.header with
      record_count := p.header.record_count + 1
      free_space_size := p.header.free_space_size - (record_size + slot_size) }
    ({ header := header, slots := slots, data := data }, .ok slot_index)

/-- `Page::get_record`. -/
def Page.get_record (p : Page) (slot_index : Nat) : Except String (List Nat) :=
  if p.slots.length ≤ slot_index then .error "Invalid slot index"
  else
    let slot := p.slots.getD slot_index { offset := 0, length := 0 }
    let data_start := slot.offset - PAGE_HEADER_SIZE
    let data_end := data_start + slot.length
    if p.data.length < data_end then .error "Record extends beyond page"
    else .ok (extract p.data data_start data_end)

/-- `Page::update_checksum`: the wrapping 32-bit sum of all serialized slot
bytes followed by all data bytes. -/
def Page.update_checksum (p : Page) : Page :=
  let checksum := p.slots.foldl
    (fun acc slot => slot.serialize.foldl (fun a b => (a + b) % 4294967296) acc) 0
  let checksum := p.data.foldl (fun a b => (a + b) % 4294967296) checksum
  { p with header := { p.header with checksum := checksum } }

/-- The slot-directory write loop of `Page::serialize`. -/
def writeSlotsLoop : List SlotEntry → Nat → List Nat → List Nat
  | [], _, bytes => bytes
  | s :: rest, off, bytes => writeSlotsLoop rest (off + 4) (writeAt bytes off s.serialize)

/-- `Page::serialize` (`&mut self`): refreshes the checksum, writes the header
at `[0, 24)`, the slot directory from offset 24 upward, and then copies the
whole `data` vector to `[24, 24 + data.len())`.  Returns the updated page
together with the produced bytes. -/
def Page.serialize (p : Page) : Page × List Nat :=
  let p := p.update_checksum
  let page_bytes := List.replicate PAGE_SIZE 0
  let page_bytes := writeAt page_bytes 0 p.header.serialize
  let page_bytes := writeSlotsLoop p.slots PAGE_HEADER_SIZE page_bytes
  let page_bytes := writeAt page_bytes PAGE_HEADER_SIZE p.data
  (p, page_bytes)

/-- The slot-directory read loop of `Page::deserialize`. -/
def readSlotsLoop (bytes : List Nat) : Nat → Nat → List SlotEntry → Except String (List SlotEntry)
  | 0, _, acc => .ok acc
  | n + 1, slot_offset, acc =>
    if bytes.length < slot_offset + 4 then .error "Invalid slot directory"
    else
      match SlotEntry.deserialize (extract bytes slot_offset (slot_offset + 4)) with
      | .error e => .error e
      | .ok slot => readSlotsLoop bytes n (slot_offset + 4) (acc ++ [slot])

/-- `Page::deserialize`. -/
def Page.deserialize (bytes : List Nat) : Except String Page :=
  if bytes.length ≠ PAGE_SIZE then .error "Invalid page size"
  else
    match PageHeader.deserialize (extract bytes 0 PAGE_HEADER_SIZE) with
    | .error e => .error e
    | .ok header =>
      match readSlotsLoop bytes header.record_count PAGE_HEADER_SIZE [] with
      | .error e => .error e
      | .ok slots =>
        let data := extract bytes PAGE_HEADER_SIZE (PAGE_HEADER_SIZE + MAX_PAGE_DATA_SIZE)
        .ok { header := header, slots := slots, data := data }

/-!
## Value codec (src/src/schema/value.rs)

`i16`/`i32`/`i64` are modelled by their two's-complement bit patterns (a `Nat`
below `2^16`/`2^32`/`2^64`), and `f32`/`f64` by their IEEE-754 bit patterns;
`to_le_bytes`/`from_le_bytes` move exactly those patterns, and equality of
patterns coincides with Rust's structural equality of the serialized values.
Rust `String`s are modelled as their UTF-8 byte lists.
-/

inductive Value where
  | byte (v : Nat)
  | short (bits : Nat)
  | int (bits : Nat)
  | long (bits : Nat)
  | float (bits : Nat)
  | double (bits : Nat)
  | boolean (v : Bool)
  | string (s : List Nat)
deriving Repr, DecidableEq

/-- Number of UTF-8 characters of a valid UTF-8 byte list: the bytes that are
not continuation bytes (`value.chars().count()` in the source). -/
def utf8CharCount (s : List Nat) : Nat :=
  (s.filter (fun b => !(128 ≤ b && b < 192))).length

/-- Rust `String::from_utf8` validity check. -/
def isValidUtf8 : List Nat → Bool
  | [] => true
  | b :: r =>
    if b ≤ 0x7F then isValidUtf8 r
    else if 0xC2 ≤ b && b ≤ 0xDF then
      match r with
      | b1 :: r1 => (0x80 ≤ b1 && b1 ≤ 0xBF) && isValidUtf8 r1
      | _ => false
    else if b = 0xE0 then
      match r with
      | b1 :: b2 :: r1 =>
        (0xA0 ≤ b1 && b1 ≤ 0xBF) && (0x80 ≤ b2 && b2 ≤ 0xBF) && isValidUtf8 r1
      | _ => false
    else if (0xE1 ≤ b && b ≤ 0xEC) || b = 0xEE || b = 0xEF then
      match r with
      | b1 :: b2 :: r1 =>
        (0x80 ≤ b1 && b1 ≤ 0xBF) && (0x80 ≤ b2 && b2 ≤ 0xBF) && isValidUtf8 r1
      | _ => false
    else if b = 0xED then
      match r with
      | b1 :: b2 :: r1 =>
        (0x80 ≤ b1 && b1 ≤ 0x9F) && (0x80 ≤ b2 && b2 ≤ 0xBF) && isValidUtf8 r1
      | _ => false
    else if b = 0xF0 then
      match r with
      | b1 :: b2 :: b3 :: r1 =>
        (0x90 ≤ b1 && b1 ≤ 0xBF) && (0x80 ≤ b2 && b2 ≤ 0xBF) &&
          (0x80 ≤ b3 && b3 ≤ 0xBF) && isValidUtf8 r1
      | _ => false
    else if 0xF1 ≤ b && b ≤ 0xF3 then
      match r with
      | b1 :: b2 :: b3 :: r1 =>
        (0x80 ≤ b1 && b1 ≤ 0xBF) && (0x80 ≤ b2 && b2 ≤ 0xBF) &&
          (0x80 ≤ b3 && b3 ≤ 0xBF) && isValidUtf8 r1
      | _ => false
    else if b = 0xF4 then
      match r with
      | b1 :: b2 :: b3 :: r1 =>
        (0x80 ≤ b1 && b1 ≤ 0x8F) && (0x80 ≤ b2 && b2 ≤ 0xBF) &&
          (0x80 ≤ b3 && b3 ≤ 0xBF) && isValidUtf8 r1
      | _ => false
    else false

/-- `Value::serialize`: a one-byte type tag followed by the little-endian body;
strings carry a one-byte length.  `serialize_string` panics in the source when
the string has more than 255 characters; the panic is modelled as `[]` (no
theorem exercises that branch). -/
def Value.serialize : Value → List Nat
  | .byte v => [0, v]
  | .short bits => 1 :: le16 bits
  | .int bits => 2 :: le32 bits
  | .long bits => 3 :: le64 bits
  | .float bits => 4 :: le32 bits
  | .double bits => 5 :: le64 bits
  | .boolean v => [6, if v then 1 else 0]
  | .string s => if 255 < utf8CharCount s then [] else 7 :: s.length :: s

/-- `deserialize_string`: note the source demands `bytes.len() ≥
TYPE_STRING_SIZE = 256` (the maximum wire size) before reading anything. -/
def deserialize_string (bytes : List Nat) : Except String (Value × Nat) :=
  if bytes.length < 256 then .error "Incomplete string length"
  else
    let len := bytes.getD 1 0
    if bytes.length < 2 + len then .error "Incomplete string data"
    else
      let string_bytes := extract bytes 2 (2 + len)
      if isValidUtf8 string_bytes then .ok (.string string_bytes, 2 + len)
      else .error "Invalid UTF-8"

/-- `Value::deserialize`: dispatch on the type tag; each fixed-size variant
checks `bytes.len() ≥ TYPE_*_SIZE` and reads its little-endian body. -/
def Value.deserialize (bytes : List Nat) : Except String (Value × Nat) :=
  match bytes with
  | [] => .error "Empty bytes"
  | tag :: _ =>
    if tag = 0 then
      if bytes.length < 2 then .error "Incomplete byte value"
      else .ok (.byte (bytes.getD 1 0), 2)
    else if tag = 1 then
      if bytes.length < 3 then .error "Incomplete short value"
      else .ok (.short (readLE2 bytes 1), 3)
    else if tag = 2 then
      if bytes.length < 5 then .error "Incomplete int value"
      else .ok (.int (readLE4 bytes 1), 5)
    else if tag = 3 then
      if bytes.length < 9 then .error "Incomplete long value"
      else .ok (.long (readLE8 bytes 1), 9)
    else if tag = 4 then
      if bytes.length < 5 then .error "Incomplete float value"
      else .ok (.float (readLE4 bytes 1), 5)
    else if tag = 5 then
      if bytes.length < 9 then .error "Incomplete double value"
      else .ok (.double (readLE8 bytes 1), 9)
    else if tag = 6 then
      if bytes.length < 2 then .error "Incomplete boolean value"
      else .ok (.boolean (bytes.getD 1 0 ≠ 0), 2)
    else if tag = 7 then
      deserialize_string bytes
    else .error "Unknown type tag"

deriving instance DecidableEq for Except

/-!
## Arena-backed B-tree (src/crates/btree/src/btree.rs and
src/crates/btree/src/btree/ — the two drafts implement the same algorithms;
search/insert are embedded from btree.rs, delete from the complete draft in
btree/btree_delete.rs, the arena from both).

Modelling conventions:
* `NodeId = usize` becomes `Nat`; 64-bit keys become `Nat` (only `<`, `=` are
  used, so behaviour is identical on the u64 range);
* `Vec` indexing `v[i]` becomes `List.getD v i 0`, assignment `v[i] = x`
  becomes `List.set`, `push`/`pop`/`insert(0,·)`/`remove`/`extend` become
  `++ [x]` / `getLast?`+`dropLast` / `x :: ·` / `eraseIdx`,`tail` / `++`;
* `n -= 1` on `usize` becomes truncated `Nat` subtraction;
* the unbounded Rust recursion gets an explicit fuel argument; public entry
  points pass `arena.nodes.length`, which bounds the height of every
  well-formed tree, so the fuel never runs out on reachable trees.
-/

structure BtreeNode where
  id : Nat
  n : Nat
  is_leaf : Bool
  keys : List Nat
  children_ids : List Nat
deriving Repr, DecidableEq

/-- The all-zero node record (used as the out-of-bounds default of `getD`;
in-bounds accesses never see it). -/
def BtreeNode.empty : BtreeNode :=
  { id := 0, n := 0, is_leaf := true, keys := [], children_ids := [] }

structure Arena where
  nodes : List BtreeNode
  free_list : List Nat
deriving Repr, DecidableEq

/-- `Arena::new`. -/
def Arena.new : Arena :=
  { nodes := [], free_list := [] }

/-- `Arena::allocate_node`: pop a recycled id from the end of the free list,
else append a fresh leaf record with `2t-1` zero keys and `2t` zero children.
Returns the updated arena and the id. -/
def Arena.allocate_node (a : Arena) (t : Nat) : Arena × Nat :=
  match a.free_list.getLast? with
  | some id => ({ a with free_list := a.free_list.dropLast }, id)
  | none =>
    let id := a.nodes.length
    ({ a with nodes := a.nodes ++
        [{ id := id, n := 0, is_leaf := true,
           keys := List.replicate (2 * t - 1) 0,
           children_ids := List.replicate (2 * t) 0 }] }, id)

/-- `Arena::deallocate_node`: push the id on the free list and reset the
record to the canonical empty state. -/
def Arena.deallocate_node (a : Arena) (id t : Nat) : Arena :=
  { nodes := a.nodes.set id
      (let nd := a.nodes.getD id BtreeNode.empty
       { nd with n := 0, is_leaf := true,
                 keys := List.replicate (2 * t - 1) 0,
                 children_ids := List.replicate (2 * t) 0 })
    free_list := a.free_list ++ [id] }

structure Btree where
  t : Nat
  arena : Arena
  root_id : Nat
deriving Repr, DecidableEq

/-- `self.arena.nodes[id]`. -/
def Btree.node (tr : Btree) (id : Nat) : BtreeNode :=
  tr.arena.nodes.getD id BtreeNode.empty

/-- In-place update of `self.arena.nodes[id]`. -/
def Btree.modifyNode (tr : Btree) (id : Nat) (f : BtreeNode → BtreeNode) : Btree :=
  { tr with arena := { tr.arena with nodes := tr.arena.nodes.set id (f (tr.node id)) } }

/-- `Btree::new`. -/
def Btree.new (minimum_degree : Nat) : Btree :=
  let alloc := Arena.new.allocate_node minimum_degree
  { t := minimum_degree, arena := alloc.1, root_id := alloc.2 }

/-- The scan loop `while i < n && keys[i] < key { i += 1 }` shared by
`recursive_search`, the insert descent and `find_child_index`; the fuel is the
remaining iteration count `n - i`. -/
def scanFrom (keys : List Nat) (key : Nat) : Nat → Nat → Nat
  | i, 0 => i
  | i, fuel + 1 => if keys.getD i 0 < key then scanFrom keys key (i + 1) fuel else i

/-- `Btree::find_child_index` (btree/btree.rs): the smallest `i < n` with
`keys[i] ≥ key`, else `n`. -/
def Btree.find_child_index (tr : Btree) (node_id key : Nat) : Nat :=
  scanFrom (tr.node node_id).keys key 0 (tr.node node_id).n

/-- `Btree::recursive_search` (btree.rs lines 117-134). -/
def Btree.recursive_search (tr : Btree) : Nat → Nat → Nat → Option (Nat × Nat)
  | 0, _, _ => none
  | fuel + 1, node_id, key =>
    let node := tr.node node_id
    let index := scanFrom node.keys key 0 node.n
    if index < node.n ∧ node.keys.getD index 0 = key then some (node_id, index)
    else if node.is_leaf then none
    else tr.recursive_search fuel (node.children_ids.getD index 0) key

/-- `Btree::search`. -/
def Btree.search (tr : Btree) (key : Nat) : Option (Nat × Nat) :=
  tr.recursive_search tr.arena.nodes.length tr.root_id key

/-- The key-copy loop of `split_child`:
`for i in 0..cnt { nodes[dst].keys[i] = nodes[src].keys[i + t] }`. -/
def Btree.copyKeysLoop (tr : Btree) (dst src t : Nat) : Nat → Btree
  | 0 => tr
  | m + 1 =>
    let tr1 := tr.copyKeysLoop dst src t m
    tr1.modifyNode dst (fun nd => { nd with keys := nd.keys.set m ((tr1.node src).keys.getD (m + t) 0) })

/-- The child-pointer copy loop of `split_child`:
`for i in 0..cnt { nodes[dst].children_ids[i] = nodes[src].children_ids[i + t] }`. -/
def Btree.copyChildrenLoop (tr : Btree) (dst src t : Nat) : Nat → Btree
  | 0 => tr
  | m + 1 =>
    let tr1 := tr.copyChildrenLoop dst src t m
    tr1.modifyNode dst (fun nd =>
      { nd with children_ids := nd.children_ids.set m ((tr1.node src).children_ids.getD (m + t) 0) })

/-- A right-shift loop `for i in (lo..=hi).rev() { v[i+1] = v[i] }` on one
vector; `i` starts at `hi` and `cnt = hi + 1 - lo` iterations run. -/
def shiftRightFrom (v : List Nat) : Nat → Nat → List Nat
  | _, 0 => v
  | i, cnt + 1 => shiftRightFrom (v.set (i + 1) (v.getD i 0)) (i - 1) cnt

/-- `Btree::split_child` (btree.rs lines 200-252). -/
def Btree.split_child (tr : Btree) (parent_id child_index : Nat) : Btree :=
  let t := tr.t
  let alloc := tr.arena.allocate_node t
  let new_sibling_id := alloc.2
  let tr1 : Btree := { tr with arena := alloc.1 }
  let child_id := (tr1.node parent_id).children_ids.getD child_index 0
  let is_leaf := (tr1.node child_id).is_leaf
  let median_key := (tr1.node child_id).keys.getD (t - 1) 0
  let tr2 := tr1.modifyNode new_sibling_id (fun nd => { nd with is_leaf := is_leaf, n := t - 1 })
  let tr3 := tr2.copyKeysLoop new_sibling_id child_id t (t - 1)
  let tr4 := if !is_leaf then tr3.copyChildrenLoop new_sibling_id child_id t t else tr3
  let tr5 := tr4.modifyNode child_id (fun nd => { nd with n := t - 1 })
  let pn := (tr5.node parent_id).n
  let tr6 := tr5.modifyNode parent_id (fun nd =>
    { nd with children_ids := shiftRightFrom nd.children_ids pn (pn - child_index) })
  let tr7 := tr6.modifyNode parent_id (fun nd =>
    { nd with children_ids := nd.children_ids.set (child_index + 1) new_sibling_id })
  let tr8 := tr7.modifyNode parent_id (fun nd =>
    { nd with keys := shiftRightFrom nd.keys (pn - 1) (pn - child_index) })
  let tr9 := tr8.modifyNode parent_id (fun nd => { nd with keys := nd.keys.set child_index median_key })
  tr9.modifyNode parent_id (fun nd => { nd with n := nd.n + 1 })

/-- `Btree::split_root` (btree.rs lines 179-195). -/
def Btree.split_root (tr : Btree) : Btree :=
  let t := tr.t
  let alloc := tr.arena.allocate_node t
  let new_root_id := alloc.2
  let tr1 : Btree := { tr with arena := alloc.1 }
  let tr2 := tr1.modifyNode new_root_id (fun nd =>
    { nd with is_leaf := false, n := 0, children_ids := nd.children_ids.set 0 tr.root_id })
  let tr3 : Btree := { tr2 with root_id := new_root_id }
  tr3.split_child new_root_id 0

/-- `Btree::recursive_insert` (btree.rs lines 136-177). -/
def Btree.recursive_insert : Nat → Btree → Nat → Nat → Btree
  | 0, tr, _, _ => tr
  | fuel + 1, tr, node_id, key =>
    let n := (tr.node node_id).n
    if (tr.node node_id).is_leaf then
      let pos := scanFrom (tr.node node_id).keys key 0 n
      let tr1 := tr.modifyNode node_id (fun nd =>
        { nd with keys := shiftRightFrom nd.keys (n - 1) (n - pos) })
      let tr2 := tr1.modifyNode node_id (fun nd => { nd with keys := nd.keys.set pos key })
      tr2.modifyNode node_id (fun nd => { nd with n := nd.n + 1 })
    else
      let t := tr.t
      let pos := scanFrom (tr.node node_id).keys key 0 n
      let child_id := (tr.node node_id).children_ids.getD pos 0
      if (tr.node child_id).n = 2 * t - 1 then
        let tr1 := tr.split_child node_id pos
        let pos1 := if (tr1.node node_id).keys.getD pos 0 < key then pos + 1 else pos
        let child_id1 := (tr1.node node_id).children_ids.getD pos1 0
        Btree.recursive_insert fuel tr1 child_id1 key
      else
        Btree.recursive_insert fuel tr child_id key

/-- `Btree::insert` (btree.rs lines 101-110). -/
def Btree.insert (tr : Btree) (key : Nat) : Btree :=
  let t := tr.t
  if (tr.node tr.root_id).n = 2 * t - 1 then
    let tr1 := tr.split_root
    Btree.recursive_insert tr1.arena.nodes.length tr1 tr1.root_id key
  else
    Btree.recursive_insert tr.arena.nodes.length tr tr.root_id key

/-- `Btree::find_predecessor`: the last key of the rightmost descendant leaf. -/
def Btree.find_predecessor (tr : Btree) : Nat → Nat → Nat
  | 0, node_id => (tr.node node_id).keys.getD ((tr.node node_id).n - 1) 0
  | fuel + 1, node_id =>
    let nd := tr.node node_id
    if nd.is_leaf then nd.keys.getD (nd.n - 1) 0
    else tr.find_predecessor fuel (nd.children_ids.getD nd.n 0)

/-- `Btree::find_successor`: the first key of the leftmost descendant leaf. -/
def Btree.find_successor (tr : Btree) : Nat → Nat → Nat
  | 0, node_id => (tr.node node_id).keys.getD 0 0
  | fuel + 1, node_id =>
    let nd := tr.node node_id
    if nd.is_leaf then nd.keys.getD 0 0
    else tr.find_successor fuel (nd.children_ids.getD 0 0)

/-- `Btree::borrow_from_left_sibling` (btree/btree_delete.rs lines 122-142). -/
def Btree.borrow_from_left_sibling (tr : Btree) (parent_id child_index : Nat) : Btree :=
  let child_id := (tr.node parent_id).children_ids.getD child_index 0
  let left_sibling_id := (tr.node parent_id).children_ids.getD (child_index - 1) 0
  let parent_key := (tr.node parent_id).keys.getD (child_index - 1) 0
  let tr1 := tr.modifyNode child_id (fun nd => { nd with keys := parent_key :: nd.keys })
  let left_sibling_key := (tr1.node left_sibling_id).keys.getLast?
  let tr2 := tr1.modifyNode left_sibling_id (fun nd => { nd with keys := nd.keys.dropLast })
  let tr3 := tr2.modifyNode parent_id (fun nd =>
    { nd with keys := nd.keys.set (child_index - 1) (left_sibling_key.getD 0) })
  let tr4 :=
    if !(tr3.node child_id).is_leaf then
      let left_sibling_child_id := (tr3.node left_sibling_id).children_ids.getLast?
      let tr4a := tr3.modifyNode left_sibling_id (fun nd =>
        { nd with children_ids := nd.children_ids.dropLast })
      tr4a.modifyNode child_id (fun nd =>
        { nd with children_ids := left_sibling_child_id.getD 0 :: nd.children_ids })
    else tr3
  let tr5 := tr4.modifyNode child_id (fun nd => { nd with n := nd.n + 1 })
  tr5.modifyNode left_sibling_id (fun nd => { nd with n := nd.n - 1 })

/-- `Btree::borrow_from_right_sibling` (btree/btree_delete.rs lines 144-164). -/
def Btree.borrow_from_right_sibling (tr : Btree) (parent_id child_index : Nat) : Btree :=
  let child_id := (tr.node parent_id).children_ids.getD child_index 0
  let right_sibling_id := (tr.node parent_id).children_ids.getD (child_index + 1) 0
  let parent_key := (tr.node parent_id).keys.getD child_index 0
  let tr1 := tr.modifyNode child_id (fun nd => { nd with keys := nd.keys ++ [parent_key] })
  let right_sibling_key := (tr1.node right_sibling_id).keys.getD 0 0
  let tr2 := tr1.modifyNode right_sibling_id (fun nd => { nd with keys := nd.keys.tail })
  let tr3 := tr2.modifyNode parent_id (fun nd =>
    { nd with keys := nd.keys.set child_index right_sibling_key })
  let tr4 :=
    if !(tr3.node child_id).is_leaf then
      let right_sibling_child_id := (tr3.node right_sibling_id).children_ids.getD 0 0
      let tr4a := tr3.modifyNode right_sibling_id (fun nd =>
        { nd with children_ids := nd.children_ids.tail })
      tr4a.modifyNode child_id (fun nd =>
        { nd with children_ids := nd.children_ids ++ [right_sibling_child_id] })
    else tr3
  let tr5 := tr4.modifyNode child_id (fun nd => { nd with n := nd.n + 1 })
  tr5.modifyNode right_sibling_id (fun nd => { nd with n := nd.n - 1 })

/-- `Btree::merge_children` (btree/btree_delete.rs lines 166-201): fold the
parent separator and the right child into the left child, shrink the parent,
deallocate the right child. -/
def Btree.merge_children (tr : Btree) (parent_id index : Nat) : Btree :=
  let left_child_id := (tr.node parent_id).children_ids.getD index 0
  let right_child_id := (tr.node parent_id).children_ids.getD (index + 1) 0
  let left_child_n := (tr.node left_child_id).n
  let right_child_n := (tr.node right_child_id).n
  let tr1 := tr.modifyNode left_child_id (fun nd =>
    { nd with keys := nd.keys.set left_child_n ((tr.node parent_id).keys.getD index 0) })
  let right_child_keys := (tr1.node right_child_id).keys
  let tr2 := tr1.modifyNode left_child_id (fun nd => { nd with keys := nd.keys ++ right_child_keys })
  let tr3 :=
    if !(tr2.node left_child_id).is_leaf then
      let right_child_children := (tr2.node right_child_id).children_ids
      tr2.modifyNode left_child_id (fun nd =>
        { nd with children_ids := nd.children_ids ++ right_child_children })
    else tr2
  let tr4 := tr3.modifyNode parent_id (fun nd => { nd with keys := nd.keys.eraseIdx index })
  let tr5 := tr4.modifyNode parent_id (fun nd =>
    { nd with children_ids := nd.children_ids.eraseIdx (index + 1) })
  let tr6 := tr5.modifyNode left_child_id (fun nd => { nd with n := left_child_n + right_child_n + 1 })
  let tr7 := tr6.modifyNode parent_id (fun nd => { nd with n := nd.n - 1 })
  { tr7 with arena := tr7.arena.deallocate_node right_child_id tr7.t }

/-- `Btree::fix_child` (btree/btree_delete.rs lines 103-120). -/
def Btree.fix_child (tr : Btree) (parent_id child_index : Nat) : Btree :=
  let parent := tr.node parent_id
  if 0 < child_index ∧ tr.t ≤ (tr.node (parent.children_ids.getD (child_index - 1) 0)).n then
    tr.borrow_from_left_sibling parent_id child_index
  else if child_index < parent.n ∧ tr.t ≤ (tr.node (parent.children_ids.getD (child_index + 1) 0)).n then
    tr.borrow_from_right_sibling parent_id child_index
  else if 0 < child_index then
    tr.merge_children parent_id (child_index - 1)
  else
    tr.merge_children parent_id child_index

/-- `Btree::recursive_delete` (btree/btree_delete.rs lines 10-52), with
`delete_from_internal_node` (lines 54-75) inlined as the `some index` internal
arm so the mutual recursion is structural in the fuel.  Note
`iter().position(|&x| x == key)` scans the WHOLE keys vector, including the
stale positions at and beyond `n`. -/
def Btree.recursive_delete : Nat → Btree → Nat → Nat → Btree
  | 0, tr, _, _ => tr
  | fuel + 1, tr, node_id, key =>
    let position := (tr.node node_id).keys.findIdx? (fun x => x == key)
    if (tr.node node_id).is_leaf then
      match position with
      | some index =>
        let tr1 := tr.modifyNode node_id (fun nd => { nd with keys := nd.keys.eraseIdx index })
        tr1.modifyNode node_id (fun nd => { nd with n := nd.n - 1 })
      | none => tr
    else
      match position with
      | some index =>
        -- Case 1: key in the internal node (`delete_from_internal_node`)
        let t := tr.t
        let key1 := (tr.node node_id).keys.getD index 0
        let left_child_id := (tr.node node_id).children_ids.getD index 0
        let right_child_id := (tr.node node_id).children_ids.getD (index + 1) 0
        if t ≤ (tr.node left_child_id).n then
          -- Case 1a
          let predecessor := tr.find_predecessor tr.arena.nodes.length left_child_id
          let tr1 := tr.modifyNode node_id (fun nd => { nd with keys := nd.keys.set index predecessor })
          Btree.recursive_delete fuel tr1 left_child_id predecessor
        else if t ≤ (tr.node right_child_id).n then
          -- Case 1b
          let successor := tr.find_successor tr.arena.nodes.length right_child_id
          let tr1 := tr.modifyNode node_id (fun nd => { nd with keys := nd.keys.set index successor })
          Btree.recursive_delete fuel tr1 right_child_id successor
        else
          -- Case 1c
          let tr1 := tr.merge_children node_id index
          Btree.recursive_delete fuel tr1 left_child_id key1
      | none =>
        -- Case 2: key not in this node, recurse to child
        let child_index := tr.find_child_index node_id key
        let child_id := (tr.node node_id).children_ids.getD child_index 0
        if (tr.node child_id).n < tr.t then
          let tr1 := tr.fix_child node_id child_index
          let child_index1 := tr1.find_child_index node_id key
          let child_id1 := (tr1.node node_id).children_ids.getD child_index1 0
          Btree.recursive_delete fuel tr1 child_id1 key
        else
          Btree.recursive_delete fuel tr child_id key

/-- `Btree::delete` (btree/btree_delete.rs lines 6-8, btree.rs lines 112-114):
just the recursive call — there is no root-collapse step afterwards. -/
def Btree.delete (tr : Btree) (key : Nat) : Btree :=
  Btree.recursive_delete tr.arena.nodes.length tr tr.root_id key

/-- Inserting every key of a list in order, starting from `Btree.new t`. -/
def Btree.insertAll (tr : Btree) (keys : List Nat) : Btree :=
  keys.foldl Btree.insert tr

/-!
## Specification-level structure of a B-tree arena

The following `Bool`-valued predicates describe well-formed (insert-reachable)
trees and are used to state and prove the search/insert claims.  `h` is an
upper bound on the height of the subtree (a leaf may appear at any `h`).
-/

/-- Strictly increasing list of keys. -/
def sortedLtB : List Nat → Bool
  | [] => true
  | [_] => true
  | x :: y :: rest => decide (x < y) && sortedLtB (y :: rest)

/-- Every key strictly above the optional lower bound (`none` = no bound). -/
def aboveLo (lo : Option Nat) (ks : List Nat) : Bool :=
  match lo with
  | none => true
  | some l => ks.all (fun k => decide (l < k))

/-- Every key strictly below the optional upper bound (`none` = no bound). -/
def belowHi (hi : Option Nat) (ks : List Nat) : Bool :=
  match hi with
  | none => true
  | some u => ks.all (fun k => decide (k < u))

/-- Per-node structural facts: the id is allocated, the vectors have their
fixed capacities `2t-1` / `2t`, and the key count is at most `2t-1`. -/
def nodeBasic (a : Arena) (t id : Nat) : Bool :=
  decide (id < a.nodes.length) &&
  decide ((a.nodes.getD id BtreeNode.empty).keys.length = 2 * t - 1) &&
  decide ((a.nodes.getD id BtreeNode.empty).children_ids.length = 2 * t) &&
  decide ((a.nodes.getD id BtreeNode.empty).n ≤ 2 * t - 1)

/-- Structural invariant of the subtree rooted at `id`, height at most `h`:
every reachable node satisfies `nodeBasic`, and internal nodes have `n + 1`
structurally sound children. -/
def sInvSub (a : Arena) (t : Nat) : Nat → Nat → Bool
  | 0, id => nodeBasic a t id && (a.nodes.getD id BtreeNode.empty).is_leaf
  | h + 1, id =>
    let nd := a.nodes.getD id BtreeNode.empty
    if nd.is_leaf then nodeBasic a t id
    else
      nodeBasic a t id &&
      (List.range (nd.n + 1)).all (fun i => sInvSub a t h (nd.children_ids.getD i 0))

/-- Order invariant of the subtree rooted at `id` within the open interval
`(lo, hi)`: the meaningful key prefix of every node is strictly increasing and
strictly inside the bounds, and each child subtree lies strictly between the
adjacent separators. -/
def ordSub (a : Arena) (t : Nat) : Nat → Nat → Option Nat → Option Nat → Bool
  | 0, id, lo, hi =>
    let nd := a.nodes.getD id BtreeNode.empty
    sortedLtB (nd.keys.take nd.n) && aboveLo lo (nd.keys.take nd.n) && belowHi hi (nd.keys.take nd.n)
  | h + 1, id, lo, hi =>
    let nd := a.nodes.getD id BtreeNode.empty
    let ks := nd.keys.take nd.n
    if nd.is_leaf then sortedLtB ks && aboveLo lo ks && belowHi hi ks
    else
      sortedLtB ks && aboveLo lo ks && belowHi hi ks &&
      (List.range (nd.n + 1)).all (fun i =>
        ordSub a t h (nd.children_ids.getD i 0)
          (if i = 0 then lo else some (nd.keys.getD (i - 1) 0))
          (if i = nd.n then hi else some (nd.keys.getD i 0)))

/-- Interleave child key lists and separators in tree order. -/
def glueLists : List (List Nat) → List Nat → List Nat
  | [], ks => ks
  | c :: cs, [] => c ++ glueLists cs []
  | c :: cs, k :: ks => c ++ k :: glueLists cs ks

/-- The in-order list of meaningful keys of the subtree rooted at `id`. -/
def keyListSub (a : Arena) : Nat → Nat → List Nat
  | 0, id =>
    let nd := a.nodes.getD id BtreeNode.empty
    nd.keys.take nd.n
  | h + 1, id =>
    let nd := a.nodes.getD id BtreeNode.empty
    if nd.is_leaf then nd.keys.take nd.n
    else
      glueLists ((nd.children_ids.take (nd.n + 1)).map (fun c => keyListSub a h c))
        (nd.keys.take nd.n)

/-- The ids of all nodes of the subtree rooted at `id`. -/
def idListSub (a : Arena) : Nat → Nat → List Nat
  | 0, id => [id]
  | h + 1, id =>
    let nd := a.nodes.getD id BtreeNode.empty
    if nd.is_leaf then [id]
    else id :: ((nd.children_ids.take (nd.n + 1)).map (fun c => idListSub a h c)).flatten

/-- Structural well-formedness of a whole tree with height bound `h`:
`t ≥ 2`, an empty free list (insert-only reachable states never deallocate),
`h` small enough that the public entry points' fuel `nodes.length` never runs
out, a structurally sound root subtree, and no sharing between subtrees. -/
def SInvTree (tr : Btree) (h : Nat) : Bool :=
  decide (2 ≤ tr.t) && decide (tr.arena.free_list = []) &&
  decide (h < tr.arena.nodes.length) &&
  sInvSub tr.arena tr.t h tr.root_id &&
  decide (idListSub tr.arena h tr.root_id).Nodup

/-- Full well-formedness: structure plus key order. -/
def WfTree (tr : Btree) (h : Nat) : Bool :=
  SInvTree tr h && ordSub tr.arena tr.t h tr.root_id none none

/-- The in-order key list of the whole tree. -/
def keyList (tr : Btree) (h : Nat) : List Nat :=
  keyListSub tr.arena h tr.root_id

/-- `optLo lo k`: the optional lower bound `lo` lies strictly below `k`. -/
def optLo : Option Nat → Nat → Prop
  | none, _ => True
  | some l, k => l < k

/-- `optHi k hi`: `k` lies strictly below the optional upper bound `hi`. -/
def optHi : Nat → Option Nat → Prop
  | _, none => True
  | k, some u => k < u

/-- The t=2 tree built by inserting 10, 20, 30, 40 and deleting 40: its root
(node 1) is internal with one key and both children minimal (one key each). -/
def c5treePre : Btree := ((Btree.new 2).insertAll [10, 20, 30, 40]).delete 40

/-- `c5treePre` after `delete 10`, which merges the two minimal children and
leaves the root internal with `n = 0`. -/
def c5tree : Btree := c5treePre.delete 10

/-- A fresh t=2 tree holding only the key 10; its root keys vector is
`[10, 0, 0]` with stale zeros beyond `n = 1`. -/
def c6tree : Btree := (Btree.new 2).insert 10

/-- A fresh Data page with `collection_id = 7` holding a record of eight `1`
bytes followed by a record of six `2` bytes. -/
def pageOverlapExample : Page :=
  (((Page.new .DataPage 7).insert_record (List.replicate 8 1)).1.insert_record
    (List.replicate 6 2)).1

/-- A fresh Data page with `collection_id = 7` holding one record of four `9`
bytes. -/
def pageC4Example : Page :=
  ((Page.new .DataPage 7).insert_record (List.replicate 4 9)).1

/-- A concrete `ChunkHeader` used to exhibit the layout of the sequential
serializer draft: version 1, every other field 0. -/
def hfHeaderExample : ChunkHeader :=
  { id := 0, length := 0, version := 1, time := 0, max_length := 0, page_count := 0,
    pin_count := 0, table_of_content_position := 0, layout_root_position := 0,
    map_id := 0, next := 0 }

/-!
## Basic lemmas about the byte-buffer model
-/

@[simp]
theorem le16_length (v : Nat) : (le16 v).length = 2 := rfl

@[simp]
theorem le32_length (v : Nat) : (le32 v).length = 4 := rfl

@[simp]
theorem le64_length (v : Nat) : (le64 v).length = 8 := rfl

/-- Writing `src` at the start of the zero tail of a buffer. -/
theorem writeAt_concat (A : List Nat) (m : Nat) (off : Nat) (src : List Nat)
    (hA : A.length = off) :
    writeAt (A ++ List.replicate m 0) off src =
      (A ++ src) ++ List.replicate (m - src.length) 0 := by
  subst hA
  unfold writeAt
  rw [List.take_left, List.drop_append_eq_append_drop]
  simp [List.drop_replicate, List.append_assoc]

/-- Writing `src` at offset 0 of an all-zero buffer. -/
theorem writeAt_zeros (m : Nat) (src : List Nat) :
    writeAt (List.replicate m 0) 0 src = src ++ List.replicate (m - src.length) 0 := by
  have h := writeAt_concat [] m 0 src rfl
  simpa using h

/-- Peeling a leading block off an `extract`. -/
theorem extract_peel (A rest : List Nat) (a b : Nat) (ha : A.length ≤ a) :
    extract (A ++ rest) a b = extract rest (a - A.length) (b - A.length) := by
  unfold extract
  rw [List.drop_append_eq_append_drop]
  rw [List.drop_eq_nil_of_le ha, List.nil_append]
  congr 1
  omega

/-- `extract` of the leading block itself. -/
theorem extract_self (B C : List Nat) (b : Nat) (hb : b = B.length) :
    extract (B ++ C) 0 b = B := by
  subst hb
  unfold extract
  simpa using List.take_left B C

/-- Reading `getD` past a leading block. -/
theorem getD_peel (A rest : List Nat) (i : Nat) (ha : A.length ≤ i) :
    (A ++ rest).getD i 0 = rest.getD (i - A.length) 0 := by
  simp only [List.getD_eq_getElem?_getD, List.getElem?_append]
  have : ¬ i < A.length := by omega
  simp [this]

theorem extract_cons (x : Nat) (rest : List Nat) (a b : Nat) (ha : 1 ≤ a) :
    extract (x :: rest) a b = extract rest (a - 1) (b - 1) := by
  have h := extract_peel [x] rest a b (by simpa using ha)
  simpa using h

theorem extract_a_a (X : List Nat) (a b : Nat) (h : b ≤ a) : extract X a b = [] := by
  unfold extract
  simp [Nat.sub_eq_zero_of_le h]

theorem extract_zero_chunk (A C : List Nat) (b : Nat) (hb : A.length ≤ b) :
    extract (A ++ C) 0 b = A ++ extract C 0 (b - A.length) := by
  unfold extract
  simp [List.take_append_eq_append_take, List.take_of_length_le hb]

theorem getD_cons (x : Nat) (rest : List Nat) (i : Nat) (hi : 1 ≤ i) :
    (x :: rest).getD i 0 = rest.getD (i - 1) 0 := by
  have h := getD_peel [x] rest i (by simpa using hi)
  simpa using h

/-!
## Canonical forms of the chunk header / footer serializers
-/

theorem serialize_header_canon (h : ChunkHeader) :
    h.serialize_header =
      [75, 78, 67, 72] ++ le32 h.id ++ le32 h.length ++ le64 h.version ++ le64 h.time ++
        le32 h.max_length ++ le32 h.page_count ++ le32 h.pin_count ++
        le32 h.table_of_content_position ++ le64 h.layout_root_position ++
        le32 h.map_id ++ le64 h.next ++ List.replicate 32 0 := by
  show writeAt _ 56 _ = _
  rw [writeAt_zeros]
  rw [writeAt_concat _ _ _ _ (by simp)]
  rw [writeAt_concat _ _ _ _ (by simp)]
  rw [writeAt_concat _ _ _ _ (by simp)]
  rw [writeAt_concat _ _ _ _ (by simp)]
  rw [writeAt_concat _ _ _ _ (by simp)]
  rw [writeAt_concat _ _ _ _ (by simp)]
  rw [writeAt_concat _ _ _ _ (by simp)]
  rw [writeAt_concat _ _ _ _ (by simp)]
  rw [writeAt_concat _ _ _ _ (by simp)]
  rw [writeAt_concat _ _ _ _ (by simp)]
  rw [writeAt_concat _ _ _ _ (by simp)]
  simp [List.append_assoc]

theorem serialize_header_hf_canon (h : ChunkHeader) :
    h.serialize_header_hf =
      [75, 78, 67, 72] ++ le32 h.id ++ le32 h.length ++ le32 h.page_count ++
        le32 h.table_of_content_position ++ le32 h.max_length ++ le32 h.pin_count ++
        le32 h.map_id ++ le64 h.version ++ le64 h.time ++ le64 h.layout_root_position ++
        le64 h.next ++ List.replicate 32 0 := by
  show writeAt _ 56 _ = _
  rw [writeAt_zeros]
  rw [writeAt_concat _ _ _ _ (by simp)]
  rw [writeAt_concat _ _ _ _ (by simp)]
  rw [writeAt_concat _ _ _ _ (by simp)]
  rw [writeAt_concat _ _ _ _ (by simp)]
  rw [writeAt_concat _ _ _ _ (by simp)]
  rw [writeAt_concat _ _ _ _ (by simp)]
  rw [writeAt_concat _ _ _ _ (by simp)]
  rw [writeAt_concat _ _ _ _ (by simp)]
  rw [writeAt_concat _ _ _ _ (by simp)]
  rw [writeAt_concat _ _ _ _ (by simp)]
  rw [writeAt_concat _ _ _ _ (by simp)]
  simp [List.append_assoc]

theorem serialize_footer_canon (f : ChunkFooter) :
    f.serialize_footer =
      le32 f.id ++ le32 f.length ++ le64 f.version ++
        le32 (get_fletcher32
          (le32 f.id ++ le32 f.length ++ le64 f.version ++ List.replicate 80 0) 0 16) ++
        List.replicate 76 0 := by
  show writeAt _ 16 _ = _
  rw [writeAt_zeros]
  rw [writeAt_concat _ _ _ _ (by simp)]
  rw [writeAt_concat _ _ _ _ (by simp)]
  rw [writeAt_concat _ _ _ _ (by simp)]
  simp [List.append_assoc]

/-!
## Fletcher32 bounds
-/

theorem fletchBlockSum_lt (blk : List Nat) (s : Nat × Nat)
    (h1 : s.1 < 4294967296) (h2 : s.2 < 4294967296) :
    (fletchBlockSum blk s).1 < 4294967296 ∧ (fletchBlockSum blk s).2 < 4294967296 := by
  induction blk generalizing s with
  | nil => exact ⟨h1, h2⟩
  | cons w ws ih =>
    refine ih _ ?_ ?_ <;> exact Nat.mod_lt _ (by norm_num)

theorem fold16_lt (x : Nat) (h : x < 4294967296) : fold16 x < 4294967296 := by
  have hd : x / 65536 < 65536 := Nat.div_lt_of_lt_mul (by omega)
  have hm : x % 65536 < 65536 := Nat.mod_lt _ (by norm_num)
  unfold fold16
  omega

theorem fletchBlocks_lt (fuel : Nat) (ws : List Nat) (s : Nat × Nat)
    (h1 : s.1 < 4294967296) (h2 : s.2 < 4294967296) :
    (fletchBlocks fuel ws s).1 < 4294967296 ∧ (fletchBlocks fuel ws s).2 < 4294967296 := by
  induction fuel generalizing ws s with
  | zero => cases ws <;> simp [fletchBlocks, h1, h2]
  | succ n ih =>
    cases ws with
    | nil => simp [fletchBlocks, h1, h2]
    | cons w rest =>
      rw [fletchBlocks]
      have hb := fletchBlockSum_lt ((w :: rest).take 360) s h1 h2
      exact ih _ _ (fold16_lt _ hb.1) (fold16_lt _ hb.2)

theorem get_fletcher32_lt (bytes : List Nat) (off len : Nat) :
    get_fletcher32 bytes off len < 4294967296 := by
  unfold get_fletcher32
  have hb := fletchBlocks_lt
    ((toWords (extract bytes off (off + (len - len % 2)))).length + 1)
    (toWords (extract bytes off (off + (len - len % 2)))) (65535, 65535)
    (by norm_num) (by norm_num)
  have h232 : (4294967296 : Nat) = 2 ^ 32 := by norm_num
  by_cases hodd : len % 2 = 1 <;>
    simp only [hodd, if_true, if_false, reduceIte] <;>
    rw [h232] <;>
    refine Nat.or_lt_two_pow (Nat.mod_lt _ (by norm_num)) ?_ <;>
    rw [← h232]
  · exact fold16_lt _ (Nat.mod_lt _ (by norm_num))
  · exact fold16_lt _ hb.1

theorem get_fletcher32_16_congr (X Y : List Nat) (h : extract X 0 16 = extract Y 0 16) :
    get_fletcher32 X 0 16 = get_fletcher32 Y 0 16 := by
  unfold get_fletcher32
  norm_num
  rw [h]

/-!
## Claim C3 (corrected) and claim C8
-/

/-- C3 (amended claim, proved): the offset-table based
`ChunkHeader::serialize_header` of chunk_impl_margin.rs produces exactly 96
bytes and lays every field out at the offsets of the specification table with
little-endian encoding; in particular bytes `[12, 20)` hold the little-endian
`version`, `time` is at 20, `max_length` at 28, `page_count` at 32, `pin_count`
at 36, `table_of_content_position` at 40, `layout_root_position` at 44,
`map_id` at 52 and `next` at 56. -/
theorem chunk_header_margin_field_layout (h : ChunkHeader) :
    h.serialize_header.length = 96 ∧
    extract h.serialize_header 12 20 = le64 h.version ∧
    extract h.serialize_header 20 28 = le64 h.time ∧
    extract h.serialize_header 28 32 = le32 h.max_length ∧
    extract h.serialize_header 32 36 = le32 h.page_count ∧
    extract h.serialize_header 36 40 = le32 h.pin_count ∧
    extract h.serialize_header 40 44 = le32 h.table_of_content_position ∧
    extract h.serialize_header 44 52 = le64 h.layout_root_position ∧
    extract h.serialize_header 52 56 = le32 h.map_id ∧
    extract h.serialize_header 56 64 = le64 h.next := by
  rw [serialize_header_canon]
  refine ⟨by simp, ?_, ?_, ?_, ?_, ?_, ?_, ?_, ?_, ?_⟩ <;>
    simp [extract_cons, extract_peel, extract_self]

/-- C3 (counterexample to the claim as stated): the sequential
`ChunkHeader::serialize_header` draft of chunk_impl_header_footer.rs does not
store `version` at bytes `[12, 20)`: for the header with `version = 1` and all
other fields 0, those bytes are the `page_count`/`table_of_content_position`
fields (all zero), not the little-endian encoding of 1. -/
theorem chunk_header_hf_version_not_at_12 :
    extract hfHeaderExample.serialize_header_hf 12 20 ≠ le64 hfHeaderExample.version := by
  rw [serialize_header_hf_canon]
  decide

/-- C8: for every `ChunkFooter f`, `verify_footer (serialize_footer f)` holds,
and the four checksum bytes stored at `[16, 20)` of the serialized footer are
exactly the little-endian encoding of the Fletcher32 checksum of its first 16
bytes. -/
theorem chunk_footer_verify_roundtrip (f : ChunkFooter) :
    ChunkFooter.verify_footer f.serialize_footer = true ∧
      extract f.serialize_footer 16 20 =
        le32 (get_fletcher32 f.serialize_footer 0 16) := by
  have hcanon := serialize_footer_canon f
  have hchk : get_fletcher32 f.serialize_footer 0 16 =
      get_fletcher32 (le32 f.id ++ le32 f.length ++ le64 f.version ++ List.replicate 80 0) 0 16 := by
    apply get_fletcher32_16_congr
    rw [hcanon]
    simp [extract_zero_chunk, extract_a_a]
  constructor
  · rw [ChunkFooter.verify_footer, hcanon]
    have hlen : (le32 f.id ++ le32 f.length ++ le64 f.version ++
        le32 (get_fletcher32 (le32 f.id ++ le32 f.length ++ le64 f.version ++ List.replicate 80 0) 0 16) ++
        List.replicate 76 0).length = 96 := by simp
    rw [if_neg (by simp [hlen])]
    have hlt := get_fletcher32_lt (le32 f.id ++ le32 f.length ++ le64 f.version ++ List.replicate 80 0) 0 16
    rw [← hcanon, hchk]
    set c := get_fletcher32 (le32 f.id ++ le32 f.length ++ le64 f.version ++ List.replicate 80 0) 0 16 with hc
    have hread : readLE4 f.serialize_footer 16 =
        c % 256 + 256 * (c / 256 % 256) + 65536 * (c / 65536 % 256) + 16777216 * (c / 16777216 % 256) := by
      rw [hcanon]
      simp [readLE4, getD_peel, getD_cons, le32, le64]
    rw [hread]
    simp only [beq_iff_eq]
    omega
  · rw [hchk, hcanon]
    simp [extract_peel, extract_self]

theorem writeAt_append (A B src : List Nat) (off : Nat) (hA : A.length = off) :
    writeAt (A ++ B) off src = (A ++ src) ++ B.drop src.length := by
  subst hA
  unfold writeAt
  rw [List.take_left, List.drop_append_eq_append_drop]
  simp [List.append_assoc]

theorem writeAt_replicate (n off : Nat) (src : List Nat) :
    writeAt (List.replicate n 0) off src =
      List.replicate (min off n) 0 ++ src ++ List.replicate (n - (off + src.length)) 0 := by
  unfold writeAt
  simp [List.take_replicate, List.drop_replicate]

theorem extract_len (X : List Nat) (b : Nat) (h : b = X.length) :
    extract X 0 b = X := by
  subst h
  unfold extract
  simp

set_option maxRecDepth 4000

-- C2 symbolic: the explicit final page
theorem pageOverlapExample_eq :
    pageOverlapExample =
      { header := { magic := 0x4B454E43, page_type := .DataPage, reserved := [0, 0, 0],
                    record_count := 2, free_space_start := 24, free_space_size := 4050,
                    checksum := 0, collection_id := 7 },
        slots := [{ offset := 4088, length := 8 }, { offset := 4086, length := 6 }],
        data := List.replicate 4062 0 ++ List.replicate 6 2 ++ List.replicate 4 1 } := by
  unfold pageOverlapExample Page.insert_record Page.new PageHeader.new
  norm_num [PAGE_SIZE, PAGE_HEADER_SIZE, MAX_PAGE_DATA_SIZE, writeAt_replicate]
  refine ⟨by norm_num [PageHeader.MAGIC_NUMBER], ?_⟩
  simp only [writeAt, List.take_append_eq_append_take, List.drop_append_eq_append_drop,
    List.take_replicate, List.drop_replicate, List.length_replicate]
  norm_num

theorem overlap_get_record :
    pageOverlapExample.get_record 0 = .ok [2, 2, 2, 2, 1, 1, 1, 1] := by
  rw [pageOverlapExample_eq]
  unfold Page.get_record
  norm_num [PAGE_HEADER_SIZE]
  simp only [extract, List.drop_append_eq_append_drop, List.take_append_eq_append_take,
    List.take_replicate, List.drop_replicate, List.length_replicate, List.length_append]
  norm_num
  rfl

theorem pageC4Example_eq :
    pageC4Example =
      { header := { magic := 0x4B454E43, page_type := .DataPage, reserved := [0, 0, 0],
                    record_count := 1, free_space_start := 24, free_space_size := 4064,
                    checksum := 0, collection_id := 7 },
        slots := [{ offset := 4092, length := 4 }],
        data := List.replicate 4068 0 ++ List.replicate 4 9 } := by
  unfold pageC4Example Page.insert_record Page.new PageHeader.new
  norm_num [PAGE_SIZE, PAGE_HEADER_SIZE, MAX_PAGE_DATA_SIZE, writeAt_replicate]
  norm_num [PageHeader.MAGIC_NUMBER]

theorem pageHeader_serialize_canon (h : PageHeader) (hr : h.reserved.length = 3) :
    h.serialize =
      le32 h.magic ++ [h.page_type.toU8] ++ h.reserved ++ le16 h.record_count ++
        le16 h.free_space_start ++ le16 h.free_space_size ++ le32 h.checksum ++
        le32 h.collection_id ++ List.replicate 2 0 := by
  show writeAt _ 18 _ = _
  rw [writeAt_zeros]
  rw [writeAt_concat _ _ _ _ (by simp)]
  rw [writeAt_concat _ _ _ _ (by simp)]
  rw [writeAt_concat _ _ _ _ (by simp [hr])]
  rw [writeAt_concat _ _ _ _ (by simp [hr])]
  rw [writeAt_concat _ _ _ _ (by simp [hr])]
  rw [writeAt_concat _ _ _ _ (by simp [hr])]
  rw [writeAt_concat _ _ _ _ (by simp [hr])]
  simp only [List.append_assoc, hr, PAGE_HEADER_SIZE]
  norm_num

theorem foldl_wrap_zero (n acc : Nat) (h : acc < 4294967296) :
    List.foldl (fun a b => (a + b) % 4294967296) acc (List.replicate n 0) = acc := by
  induction n with
  | zero => rfl
  | succ m ih =>
    rw [List.replicate_succ, List.foldl_cons, Nat.add_zero, Nat.mod_eq_of_lt h]
    exact ih

theorem pageC4_checksum :
    pageC4Example.update_checksum =
      { pageC4Example with header := { pageC4Example.header with checksum := 307 } } := by
  rw [pageC4Example_eq]
  unfold Page.update_checksum
  norm_num [SlotEntry.serialize, le16, List.foldl_append, foldl_wrap_zero]
  rfl


theorem take_cons_le (x : Nat) (l : List Nat) (n : Nat) (h : 1 ≤ n) :
    (x :: l).take n = x :: l.take (n - 1) := by
  obtain ⟨m, rfl⟩ : ∃ m, n = m + 1 := ⟨n - 1, (Nat.succ_pred_eq_of_pos h).symm⟩
  simp

theorem drop_cons_le (x : Nat) (l : List Nat) (n : Nat) (h : 1 ≤ n) :
    (x :: l).drop n = l.drop (n - 1) := by
  obtain ⟨m, rfl⟩ : ∃ m, n = m + 1 := ⟨n - 1, (Nat.succ_pred_eq_of_pos h).symm⟩
  simp

theorem writeAt_zero (l src : List Nat) : writeAt l 0 src = src ++ l.drop src.length := by
  unfold writeAt
  simp

theorem writeAt_cons (x : Nat) (rest src : List Nat) (off : Nat) (h : 1 ≤ off) :
    writeAt (x :: rest) off src = x :: writeAt rest (off - 1) src := by
  unfold writeAt
  rw [take_cons_le _ _ _ h, drop_cons_le _ _ _ (by omega)]
  simp
  congr 2
  omega

theorem pageC4_serialize_bytes :
    (pageC4Example.serialize).2 =
      [67, 78, 69, 75, 1, 0, 0, 0, 1, 0, 24, 0, 224, 15, 51, 1, 0, 0, 7, 0, 0, 0, 0, 0] ++
        (List.replicate 4068 0 ++ List.replicate 4 9) := by
  unfold Page.serialize
  rw [pageC4_checksum, pageC4Example_eq]
  have hhdr : ({ magic := 0x4B454E43, page_type := .DataPage, reserved := [0, 0, 0],
                 record_count := 1, free_space_start := 24, free_space_size := 4064,
                 checksum := 307, collection_id := 7 } : PageHeader).serialize =
      [67, 78, 69, 75, 1, 0, 0, 0, 1, 0, 24, 0, 224, 15, 51, 1, 0, 0, 7, 0, 0, 0, 0, 0] := by
    rw [pageHeader_serialize_canon _ (by rfl)]
    decide
  show (_, writeAt (writeSlotsLoop _ _ (writeAt _ 0 _)) _ _).2 = _
  rw [hhdr]
  norm_num [writeSlotsLoop, SlotEntry.serialize, le16, PAGE_SIZE, PAGE_HEADER_SIZE,
    writeAt_cons, writeAt_zero, drop_cons_le, List.drop_append_eq_append_drop,
    List.drop_replicate]


theorem readSlotsLoop_zero (bytes : List Nat) (off : Nat) (acc : List SlotEntry) :
    readSlotsLoop bytes 0 off acc = .ok acc := rfl

theorem readSlotsLoop_step (bytes : List Nat) (n off : Nat) (acc : List SlotEntry) (hn : n ≠ 0) :
    readSlotsLoop bytes n off acc =
      if bytes.length < off + 4 then .error "Invalid slot directory"
      else
        match SlotEntry.deserialize (extract bytes off (off + 4)) with
        | .error e => .error e
        | .ok slot => readSlotsLoop bytes (n - 1) (off + 4) (acc ++ [slot]) := by
  obtain ⟨m, rfl⟩ : ∃ m, n = m + 1 := ⟨n - 1, (Nat.succ_pred_eq_of_pos (Nat.pos_of_ne_zero hn)).symm⟩
  simp [readSlotsLoop]

theorem pageC4_roundtrip_slots :
    (Page.deserialize (pageC4Example.serialize).2).map Page.slots =
      .ok [{ offset := 0, length := 0 }] := by
  rw [pageC4_serialize_bytes]
  have hhdrdes : PageHeader.deserialize
      [67, 78, 69, 75, 1, 0, 0, 0, 1, 0, 24, 0, 224, 15, 51, 1, 0, 0, 7, 0, 0, 0, 0, 0] =
      .ok { magic := 0x4B454E43, page_type := .DataPage, reserved := [0, 0, 0],
            record_count := 1, free_space_start := 24, free_space_size := 4064,
            checksum := 307, collection_id := 7 } := by decide
  have hslotdes : SlotEntry.deserialize [0, 0, 0, 0] =
      .ok { offset := 0, length := 0 } := by decide
  have hext0 : extract ([67, 78, 69, 75, 1, 0, 0, 0, 1, 0, 24, 0, 224, 15, 51, 1, 0, 0, 7, 0, 0, 0, 0, 0] ++
      (List.replicate 4068 0 ++ List.replicate 4 9)) 0 24 =
      [67, 78, 69, 75, 1, 0, 0, 0, 1, 0, 24, 0, 224, 15, 51, 1, 0, 0, 7, 0, 0, 0, 0, 0] :=
    extract_self _ _ _ (by rfl)
  have hext1 : extract ([67, 78, 69, 75, 1, 0, 0, 0, 1, 0, 24, 0, 224, 15, 51, 1, 0, 0, 7, 0, 0, 0, 0, 0] ++
      (List.replicate 4068 0 ++ List.replicate 4 9)) 24 28 = [0, 0, 0, 0] := by
    rw [extract_peel _ _ _ _ (by norm_num)]
    norm_num [extract, List.take_append_eq_append_take, List.take_replicate]
    rfl
  rw [Page.deserialize]
  rw [if_neg (by norm_num [PAGE_SIZE])]
  rw [show PAGE_HEADER_SIZE = 24 from rfl, hext0, hhdrdes]
  dsimp only
  rw [readSlotsLoop_step _ _ _ _ (by norm_num)]
  rw [if_neg (by norm_num)]
  rw [hext1, hslotdes]
  norm_num [readSlotsLoop_zero]
  rfl

/-- C2 (code bug): `insert_record` computes the record position as
`PAGE_SIZE - slots.len() * 4 - data.len()` instead of from the record heap top.
Inserting a record of 8 ones and then a record of 6 twos into a fresh Data page
places the second record at offset 4086 — inside the first record's extent
`[4088, 4096)` instead of at the heap top minus its length (4082) — so the
records overlap and `get_record(0)` returns bytes of both records instead of
the first record's bytes. -/
theorem page_insert_record_overlap_bug :
    pageOverlapExample.slots =
      [{ offset := 4088, length := 8 }, { offset := 4086, length := 6 }] ∧
    pageOverlapExample.get_record 0 = .ok [2, 2, 2, 2, 1, 1, 1, 1] ∧
    pageOverlapExample.get_record 0 ≠ .ok (List.replicate 8 1) := by
  refine ⟨by rw [pageOverlapExample_eq], overlap_get_record, ?_⟩
  rw [overlap_get_record]
  decide

/-- C4 (code bug): the `serialize`/`deserialize` round trip loses the slot
directory.  `Page::serialize` writes the slot directory at offset 24 and then
overwrites all of `[24, 4096)` with the `data` vector, and
`SlotEntry::deserialize` additionally reads the length from bytes `[1], [2]`
instead of `[2], [3]`.  For a fresh Data page holding one 4-byte record (slot
`(4092, 4)`), deserializing the serialized page yields slot directory
`[(0, 0)]`, not `[(4092, 4)]`; and even on a directly serialized slot entry,
`SlotEntry::deserialize` returns length 1039 instead of 4. -/
theorem page_slot_roundtrip_bug :
    (Page.deserialize (pageC4Example.serialize).2).map Page.slots =
      .ok [{ offset := 0, length := 0 }] ∧
    (pageC4Example.serialize).1.slots = [{ offset := 4092, length := 4 }] ∧
    SlotEntry.deserialize (SlotEntry.serialize { offset := 4092, length := 4 }) =
      .ok { offset := 4092, length := 1039 } := by
  refine ⟨pageC4_roundtrip_slots, ?_, by decide⟩
  rw [show (pageC4Example.serialize).1 = pageC4Example.update_checksum from rfl,
    pageC4_checksum]
  rw [pageC4Example_eq]

/-- C7 (code bug): `deserialize_string` requires at least
`TYPE_STRING_SIZE = 256` input bytes before reading anything, so
`deserialize(serialize(v))` fails for every string shorter than 254 bytes: for
the one-character string "a" the serialized form is `[7, 1, 97]` and
deserialization returns the "Incomplete string length" error instead of
`(String("a"), 3)`. -/
theorem value_string_roundtrip_bug :
    Value.serialize (.string [97]) = [7, 1, 97] ∧
    Value.deserialize (Value.serialize (.string [97])) = .error "Incomplete string length" := by
  refine ⟨by decide, by rfl⟩

/-- C9: `insert_record` returns an error exactly when
`data.len() + 4 > free_space_size`, and the failing call returns before any
mutation, leaving the page (header, slot directory and data bytes) unchanged. -/
theorem page_insert_record_error_iff (p : Page) (d : List Nat) :
    ((p.insert_record d).2 = .error "Not enough space in page" ↔
      p.header.free_space_size < d.length + 4) ∧
    (p.header.free_space_size < d.length + 4 → (p.insert_record d).1 = p) := by
  unfold Page.insert_record
  by_cases h : p.header.free_space_size < d.length + 4
  · simp [h]
  · simp [h]

/-- Witness for `page_insert_record_error_iff` at a concrete oversized record. -/
theorem page_insert_record_error_iff_witness :
    (Page.new .DataPage 7).header.free_space_size < (List.replicate 4069 (0 : Nat)).length + 4 ∧
    ((Page.new .DataPage 7).insert_record (List.replicate 4069 0)).1 = Page.new .DataPage 7 ∧
    ((Page.new .DataPage 7).insert_record (List.replicate 4069 0)).2 = .error "Not enough space in page" :=
  ⟨by norm_num [Page.new, PageHeader.new, MAX_PAGE_DATA_SIZE, PAGE_SIZE, PAGE_HEADER_SIZE],
   (page_insert_record_error_iff (Page.new .DataPage 7) (List.replicate 4069 0)).2
     (by norm_num [Page.new, PageHeader.new, MAX_PAGE_DATA_SIZE, PAGE_SIZE, PAGE_HEADER_SIZE]),
   (page_insert_record_error_iff (Page.new .DataPage 7) (List.replicate 4069 0)).1.mpr
     (by norm_num [Page.new, PageHeader.new, MAX_PAGE_DATA_SIZE, PAGE_SIZE, PAGE_HEADER_SIZE])⟩

/-!
## Claims C5 and C6 (B-tree delete)
-/

/-- C5 (code bug): after a top-level `delete` that leaves the root as an
internal node with `n = 0`, the root is NOT replaced by its sole remaining
child and the old root is NOT deallocated — `delete` is just
`recursive_delete(root_id, key)` with no root-collapse step.  Concretely: in
the t=2 tree built by inserting 10, 20, 30, 40 and deleting 40, the root is
internal with `n = 1` and both children minimal; deleting 10 merges the
children, after which `root_id` still points at the same internal node, now
with `n = 0`, and that node is not on the free list (so the height did not
shrink). -/
theorem btree_delete_root_not_collapsed :
    ((c5treePre.node c5treePre.root_id).is_leaf = false ∧
     (c5treePre.node c5treePre.root_id).n = 1 ∧
     (c5treePre.node ((c5treePre.node c5treePre.root_id).children_ids.getD 0 0)).n = 1 ∧
     (c5treePre.node ((c5treePre.node c5treePre.root_id).children_ids.getD 1 0)).n = 1) ∧
    c5tree.root_id = c5treePre.root_id ∧
    (c5tree.node c5tree.root_id).is_leaf = false ∧
    (c5tree.node c5tree.root_id).n = 0 ∧
    c5tree.root_id ∉ c5tree.arena.free_list := by
  refine ⟨⟨by decide, by decide, by decide, by decide⟩, by decide, by decide, by decide, by decide⟩

/-- C6 (counterexample to the claim as stated): deleting the never-inserted
key 0 from the fresh t=2 tree holding only the key 10 is NOT a no-op —
`recursive_delete` looks the key up with `iter().position(|&x| x == key)`
over the whole keys vector `[10, 0, 0]`, finds the stale 0 at index 1,
removes it and decrements `n`, after which the live key 10 is lost:
`search 10` returns `none` and the root's key count dropped from 1 to 0. -/
theorem btree_delete_absent_key_corrupts :
    c6tree.search 10 = some (0, 0) ∧
    c6tree.search 0 = none ∧
    (c6tree.node c6tree.root_id).n = 1 ∧
    (c6tree.delete 0).search 10 = none ∧
    ((c6tree.delete 0).node (c6tree.delete 0).root_id).n = 0 := by
  refine ⟨by decide, by decide, by decide, by decide, by decide⟩

/-- C6 (amended claim, proved): deleting a key that does not occur anywhere in
the root's keys vector (stale positions included) from a tree whose root is a
leaf is a no-op. -/
theorem btree_delete_absent_leaf_noop (tr : Btree) (k : Nat)
    (hleaf : (tr.node tr.root_id).is_leaf = true)
    (habs : (tr.node tr.root_id).keys.findIdx? (fun x => x == k) = none) :
    tr.delete k = tr := by
  unfold Btree.delete
  cases tr.arena.nodes.length with
  | zero => rfl
  | succ m =>
    rw [Btree.recursive_delete]
    rw [habs, hleaf]
    rfl

/-- Witness for `btree_delete_absent_leaf_noop`: deleting 99 from the fresh
t=2 tree holding only 10 leaves the tree unchanged. -/
theorem btree_delete_absent_leaf_noop_witness :
    (c6tree.node c6tree.root_id).is_leaf = true ∧
    (c6tree.node c6tree.root_id).keys.findIdx? (fun x => x == 99) = none ∧
    c6tree.delete 99 = c6tree :=
  ⟨by decide, by decide, btree_delete_absent_leaf_noop c6tree 99 (by decide) (by decide)⟩

/-!
## List surgery lemmas for the B-tree proofs
-/

theorem getD_set_self {α : Type} (l : List α) (i : Nat) (x d : α) (h : i < l.length) :
    (l.set i x).getD i d = x := by
  simp [List.getD_eq_getElem?_getD, List.getElem?_set_self h]

theorem getD_set_ne {α : Type} (l : List α) (i j : Nat) (x d : α) (h : i ≠ j) :
    (l.set i x).getD j d = l.getD j d := by
  simp [List.getD_eq_getElem?_getD, List.getElem?_set_ne h]

theorem take_set_of_le {α : Type} (l : List α) (i j : Nat) (x : α) (h : j ≤ i) :
    (l.set i x).take j = l.take j := by
  apply List.ext_getElem?
  intro k
  rw [List.getElem?_take, List.getElem?_take]
  by_cases hk : k < j
  · simp only [hk, if_true]
    rw [List.getElem?_set_ne (by omega)]
  · simp [hk]

theorem drop_set_le {α : Type} (l : List α) (i j : Nat) (x : α) (h : j ≤ i) :
    (l.set i x).drop j = (l.drop j).set (i - j) x := by
  apply List.ext_getElem?
  intro k
  rw [List.getElem?_drop, List.getElem?_set, List.getElem?_set, List.getElem?_drop]
  rw [List.length_drop]
  by_cases hk : i = j + k
  · subst hk
    rw [if_pos rfl, if_pos (by omega : j + k - j = k)]
    by_cases hlen : j + k < l.length
    · rw [if_pos hlen, if_pos (by omega)]
    · rw [if_neg hlen, if_neg (by omega)]
  · have hne1 : i - j ≠ k := by omega
    rw [if_neg hk, if_neg hne1]

theorem take_succ_getD {α : Type} (l : List α) (i : Nat) (d : α) (h : i < l.length) :
    l.take (i + 1) = l.take i ++ [l.getD i d] := by
  rw [List.take_succ, List.getD_eq_getElem l d h]
  simp [List.getElem?_eq_getElem h]

theorem drop_eq_getD_cons {α : Type} (l : List α) (i : Nat) (d : α) (h : i < l.length) :
    l.drop i = l.getD i d :: l.drop (i + 1) := by
  rw [List.drop_eq_getElem_cons h, List.getD_eq_getElem l d h]

theorem getD_drop {α : Type} (l : List α) (m i : Nat) (d : α) :
    (l.drop m).getD i d = l.getD (m + i) d := by
  simp [List.getD_eq_getElem?_getD, List.getElem?_drop]

theorem getD_take {α : Type} (l : List α) (m i : Nat) (d : α) (h : i < m) :
    (l.take m).getD i d = l.getD i d := by
  simp [List.getD_eq_getElem?_getD, List.getElem?_take, h]

@[simp]
theorem shiftRightFrom_length (v : List Nat) (hi cnt : Nat) :
    (shiftRightFrom v hi cnt).length = v.length := by
  induction cnt generalizing v hi with
  | zero => rfl
  | succ m ih => rw [shiftRightFrom, ih, List.length_set]

theorem shiftRightFrom_char (cnt : Nat) : ∀ (v : List Nat) (hi : Nat),
    hi + 1 < v.length → cnt ≤ hi + 1 →
    shiftRightFrom v hi cnt =
      v.take (hi + 1 - cnt + 1) ++ (v.drop (hi + 1 - cnt)).take cnt ++ v.drop (hi + 2) := by
  induction cnt with
  | zero =>
    intro v hi h1 h2
    show v = _
    simp [List.take_append_drop]
  | succ cnt ih =>
    intro v hi h1 h2
    show shiftRightFrom (v.set (hi + 1) (v.getD hi 0)) (hi - 1) cnt = _
    rcases Nat.eq_zero_or_pos hi with hz | hpos
    · subst hz
      have hc : cnt = 0 := by omega
      subst hc
      show v.set 1 (v.getD 0 0) = v.take 1 ++ (v.drop 0).take 1 ++ v.drop 2
      match v, h1 with
      | a :: b :: rest, _ => simp [List.set]
    · have hlen' : (hi - 1) + 1 < (v.set (hi + 1) (v.getD hi 0)).length := by
        rw [List.length_set]; omega
      have hcnt' : cnt ≤ (hi - 1) + 1 := by omega
      rw [ih _ _ hlen' hcnt']
      have e1 : (hi - 1) + 1 = hi := by omega
      rw [e1]
      have e1b : (hi - 1) + 2 = hi + 1 := by omega
      rw [e1b]
      have e2 : hi + 1 - (cnt + 1) = hi - cnt := by omega
      rw [e2]
      rw [take_set_of_le _ _ _ _ (by omega)]
      have e3 : ((v.set (hi + 1) (v.getD hi 0)).drop (hi - cnt)).take cnt =
          (v.drop (hi - cnt)).take cnt := by
        rw [drop_set_le _ _ _ _ (by omega)]
        rw [take_set_of_le _ _ _ _ (by omega)]
      rw [e3]
      have e4 : (v.set (hi + 1) (v.getD hi 0)).drop (hi + 1) =
          v.getD hi 0 :: v.drop (hi + 2) := by
        rw [drop_eq_getD_cons _ _ 0 (by rw [List.length_set]; omega)]
        rw [getD_set_self _ _ _ _ (by omega)]
        rw [List.drop_set_of_lt _ _ (by omega)]
      rw [e4]
      rw [take_succ_getD (v.drop (hi - cnt)) cnt 0 (by rw [List.length_drop]; omega)]
      rw [getD_drop]
      have e5 : hi - cnt + cnt = hi := by omega
      rw [e5]
      simp [List.append_assoc]

theorem shift_set_char (v : List Nat) (hi cnt x : Nat)
    (h1 : hi + 1 < v.length) (h2 : cnt ≤ hi + 1) :
    (shiftRightFrom v hi cnt).set (hi + 1 - cnt) x =
      v.take (hi + 1 - cnt) ++ x :: ((v.drop (hi + 1 - cnt)).take cnt ++ v.drop (hi + 2)) := by
  rw [shiftRightFrom_char cnt v hi h1 h2]
  have hlt2 : hi + 1 - cnt <
      (List.take (hi + 1 - cnt + 1) v ++ List.take cnt (List.drop (hi + 1 - cnt) v)).length := by
    simp only [List.length_append, List.length_take, List.length_drop]
    omega
  rw [List.set_append, if_pos hlt2]
  have hlt1 : hi + 1 - cnt < (List.take (hi + 1 - cnt + 1) v).length := by
    rw [List.length_take]; omega
  rw [List.set_append, if_pos hlt1]
  have e1 : (v.take (hi + 1 - cnt + 1)).set (hi + 1 - cnt) x = v.take (hi + 1 - cnt) ++ [x] := by
    rw [take_succ_getD v (hi + 1 - cnt) 0 (by omega)]
    have hge : ¬ hi + 1 - cnt < (List.take (hi + 1 - cnt) v).length := by
      rw [List.length_take]; omega
    rw [List.set_append, if_neg hge]
    have e0 : hi + 1 - cnt - (List.take (hi + 1 - cnt) v).length = 0 := by
      rw [List.length_take]; omega
    rw [e0]
    rfl
  rw [e1]
  simp [List.append_assoc]

/-!
## Node access lemmas
-/

@[simp]
theorem modify_t (tr : Btree) (id : Nat) (f : BtreeNode → BtreeNode) :
    (tr.modifyNode id f).t = tr.t := rfl

@[simp]
theorem modify_root (tr : Btree) (id : Nat) (f : BtreeNode → BtreeNode) :
    (tr.modifyNode id f).root_id = tr.root_id := rfl

@[simp]
theorem modify_free (tr : Btree) (id : Nat) (f : BtreeNode → BtreeNode) :
    (tr.modifyNode id f).arena.free_list = tr.arena.free_list := rfl

@[simp]
theorem modify_length (tr : Btree) (id : Nat) (f : BtreeNode → BtreeNode) :
    (tr.modifyNode id f).arena.nodes.length = tr.arena.nodes.length := by
  show (tr.arena.nodes.set id _).length = _
  rw [List.length_set]

theorem node_modify_self (tr : Btree) (id : Nat) (f : BtreeNode → BtreeNode)
    (h : id < tr.arena.nodes.length) :
    (tr.modifyNode id f).node id = f (tr.node id) := by
  show (tr.arena.nodes.set id _).getD id BtreeNode.empty = _
  rw [getD_set_self _ _ _ _ h]

theorem node_modify_ne (tr : Btree) (id j : Nat) (f : BtreeNode → BtreeNode)
    (h : id ≠ j) :
    (tr.modifyNode id f).node j = tr.node j := by
  show (tr.arena.nodes.set id _).getD j BtreeNode.empty = _
  rw [getD_set_ne _ _ _ _ _ h]
  rfl

/-!
## `scanFrom` characterization
-/

theorem scanFrom_ge (keys : List Nat) (key : Nat) :
    ∀ (fuel i : Nat), i ≤ scanFrom keys key i fuel := by
  intro fuel
  induction fuel with
  | zero => intro i; exact Nat.le_refl i
  | succ m ih =>
    intro i
    rw [scanFrom]
    by_cases h : keys.getD i 0 < key
    · rw [if_pos h]
      exact Nat.le_trans (Nat.le_succ i) (ih (i + 1))
    · rw [if_neg h]

theorem scanFrom_le (keys : List Nat) (key : Nat) :
    ∀ (fuel i : Nat), scanFrom keys key i fuel ≤ i + fuel := by
  intro fuel
  induction fuel with
  | zero => intro i; exact Nat.le_refl i
  | succ m ih =>
    intro i
    rw [scanFrom]
    by_cases h : keys.getD i 0 < key
    · rw [if_pos h]
      have := ih (i + 1)
      omega
    · rw [if_neg h]
      omega

theorem scanFrom_below (keys : List Nat) (key : Nat) :
    ∀ (fuel i j : Nat), i ≤ j → j < scanFrom keys key i fuel → keys.getD j 0 < key := by
  intro fuel
  induction fuel with
  | zero =>
    intro i j hij hj
    exact absurd (Nat.lt_of_le_of_lt hij hj) (Nat.lt_irrefl i)
  | succ m ih =>
    intro i j hij hj
    rw [scanFrom] at hj
    by_cases h : keys.getD i 0 < key
    · rw [if_pos h] at hj
      rcases Nat.eq_or_lt_of_le hij with rfl | hlt
      · exact h
      · exact ih (i + 1) j hlt hj
    · rw [if_neg h] at hj
      exact absurd hj (by omega)

theorem scanFrom_stop (keys : List Nat) (key : Nat) :
    ∀ (fuel i : Nat), scanFrom keys key i fuel < i + fuel →
      ¬ keys.getD (scanFrom keys key i fuel) 0 < key := by
  intro fuel
  induction fuel with
  | zero =>
    intro i h
    rw [scanFrom] at h
    omega
  | succ m ih =>
    intro i h
    rw [scanFrom] at h ⊢
    by_cases hc : keys.getD i 0 < key
    · rw [if_pos hc] at h ⊢
      exact ih (i + 1) (by omega)
    · rw [if_neg hc] at h ⊢
      exact hc
